import Mathlib

/-!
Verification model of `script.py` (codebase-to-jsonl): a tool that walks a
project tree and emits a training and a validation JSONL dataset.

The embedding is a pure pipeline over an explicit traversal list:
* a file encountered by `os.walk` is an `SFile` (relative path, read result,
  and whether the ignore spec matches it);
* `generate_data` threads the generator state (`jsonl_data`,
  `unique_lines`, `token_count`) through the file list exactly as the
  script's loop does, then performs the sampling split and appends the
  project-structure entry;
* `random.sample` is modelled by an explicit `Sampler` parameter; the
  property `SamplerOK` states what `random.sample(pop, k)` guarantees for
  `k ≤ len(pop)`: a result of length `k` whose elements come from `pop`;
* the Python float `validation_ratio` is idealised as an exact rational;
  `int(n * r)` for `0 ≤ r` is `(Int.floor (n * r)).toNat`;
* string primitives (`str.split()`, `str.splitlines()`, `str.endswith`,
  `str.replace(os.sep, '/')`, `json.dumps` on the small payloads used here)
  are implemented structurally over `List Char` so that they compute.
-/

/-- A single turn of a conversation entry: a `role` and a `content` string,
mirroring the dicts `{"role": ..., "content": ...}` built by the script. -/
structure Message where
  role : String
  content : String
deriving Repr, DecidableEq

/-- One JSONL record: a dict with a `messages` key holding a list of turns. -/
structure Entry where
  messages : List Message
deriving Repr, DecidableEq

/-- A regular file seen by the traversal, in traversal order.  `path` is the
path relative to the project root (`os.path.relpath`), `read` is the outcome
of opening and reading it (`none` models a raised exception), and `ignored`
tells whether the active ignore spec matches the file's path. -/
structure SFile where
  path : String
  read : Option String
  ignored : Bool
deriving Repr, DecidableEq

/-- `get_file_content`: returns the file's text, or `""` when the read
fails (the script catches every exception, logs, and returns `""`). -/
def get_file_content (f : SFile) : String :=
  match f.read with
  | some c => c
  | none => ""

/-- Helper for `tokenize`: Python `str.split()` over the character list —
maximal runs of non-whitespace characters, whitespace-delimited, with no
empty tokens. `cur` is the (reversed) token being accumulated. -/
def splitWsAux : List Char → List Char → List String
  | cur, [] => if cur.isEmpty then [] else [String.mk cur.reverse]
  | cur, c :: rest =>
      if c.isWhitespace then
        if cur.isEmpty then splitWsAux [] rest
        else String.mk cur.reverse :: splitWsAux [] rest
      else splitWsAux (c :: cur) rest

/-- `tokenize(text)`: `text.split()` — whitespace-delimited tokens. -/
def tokenize (text : String) : List String :=
  splitWsAux [] text.data

/-- Helper for `splitlines`: splits at `\n`, `\r\n` or `\r`; a final
unterminated segment is kept unless it is empty. `cur` is the (reversed)
current line. -/
def splitlinesAux : List Char → List Char → List String
  | cur, [] => if cur.isEmpty then [] else [String.mk cur.reverse]
  | cur, '\r' :: '\n' :: rest => String.mk cur.reverse :: splitlinesAux [] rest
  | cur, '\r' :: rest => String.mk cur.reverse :: splitlinesAux [] rest
  | cur, '\n' :: rest => String.mk cur.reverse :: splitlinesAux [] rest
  | cur, c :: rest => splitlinesAux (c :: cur) rest

/-- Python `str.splitlines()` restricted to the `\n` / `\r` / `\r\n`
boundaries (the only ones arising here): `"" ↦ []`, `"x" ↦ ["x"]`,
`"x\n" ↦ ["x"]`, `"\n" ↦ [""]`. -/
def splitlines (s : String) : List String :=
  splitlinesAux [] s.data

/-- One step of `update_unique_lines`: insert `(line, path)` into the table
only when `line` is not already a key; Python dicts keep insertion order, so
the table is an association list extended at the end. -/
def insertUnique (tbl : List (String × String)) (line path : String) :
    List (String × String) :=
  if tbl.any (fun q => q.1 == line) then tbl else tbl ++ [(line, path)]

/-- `update_unique_lines(content, file_path)`: for each line of the content,
insert it with this file's relative path unless already present. -/
def update_unique_lines (tbl : List (String × String)) (content path : String) :
    List (String × String) :=
  (splitlines content).foldl (fun t l => insertUnique t l path) tbl

/-- Association-list lookup in the unique-line table (`self.unique_lines[line]`
semantics: the value stored at the first — and only — occurrence of the key). -/
def lookupLine (tbl : List (String × String)) (line : String) : Option String :=
  (tbl.find? (fun q => q.1 == line)).map Prod.snd

/-- `json.dumps` escaping of one character inside a string value,
restricted to the two escapes that can arise from the payloads modelled
here (backslash and double quote); other characters pass through. -/
def jsonEscapeChar (c : Char) : String :=
  if c = '\\' then "\\\\" else if c = '"' then "\\\"" else String.mk [c]

/-- `json.dumps` rendering of a string value, quotes included. -/
def jsonString (s : String) : String :=
  "\"" ++ String.join (s.data.map jsonEscapeChar) ++ "\""

/-- `json.dumps({"file_path": fp})` with Python's default separators. -/
def dumpsFilePath (fp : String) : String :=
  "\x7b\"file_path\": " ++ jsonString fp ++ "\x7d"

/-- `json.dumps({"project_structure": paths})` with Python's default
separators. -/
def dumpsProjectStructure (paths : List String) : String :=
  "\x7b\"project_structure\": [" ++
    String.intercalate ", " (paths.map jsonString) ++ "]\x7d"

/-- `generate_source_code_entry(file_path, content)`: the per-file training
record; the assistant turn is the raw content, not JSON-wrapped. -/
def generate_source_code_entry (project_name file_path content : String) : Entry :=
  ⟨[⟨"user", "What is the source code of " ++ file_path ++ " for the " ++
      project_name ++ " project?"⟩,
    ⟨"assistant", content⟩]⟩

/-- The line-location record built for one sampled `(line, file_path)` pair
inside `generate_validation_questions`. -/
def line_location_entry (project_name : String) (pair : String × String) : Entry :=
  ⟨[⟨"user", "In the " ++ project_name ++
      " project, where can I find this line of code: \x27" ++ pair.1 ++ "\x27?"⟩,
    ⟨"assistant", dumpsFilePath pair.2⟩]⟩

/-- `generate_validation_questions`, with the `random.sample` result hoisted
out as the `selected` argument: one line-location record per selected pair,
in sampling order. -/
def generate_validation_questions (project_name : String)
    (selected : List (String × String)) : List Entry :=
  selected.map (line_location_entry project_name)

/-- `generate_project_structure_question(project_structure)`: the single
structure record appended to the training data. -/
def generate_project_structure_question (project_name : String)
    (project_structure : List String) : Entry :=
  ⟨[⟨"user", "What is the file structure of the " ++ project_name ++
      " project? Please answer with json with the next structure: " ++
      "\x7b\"project_structure\": [\"file1\", \"file2\", ...]\x7d"⟩,
    ⟨"assistant", dumpsProjectStructure project_structure⟩]⟩

/-- `file.endswith(('.ts', '.tsx'))`: the fixed extension allow-list used by
`get_project_structure`. A path ends with `.ts`/`.tsx` exactly when its base
name does, so the check is taken on the relative path. -/
def allowListed (path : String) : Bool :=
  ".ts".data.isSuffixOf path.data || ".tsx".data.isSuffixOf path.data

/-- `relative_file_path.replace(os.sep, '/')`: path-separator normalisation,
with the platform separator passed in as `sep`. -/
def normSep (sep : Char) (p : String) : String :=
  String.mk (p.data.map (fun c => if c = sep then '/' else c))

/-- `get_project_structure()`: re-traverses the same file list, keeps the
non-ignored files whose names end in an allow-listed extension, and returns
their separator-normalised relative paths in traversal order. -/
def get_project_structure (sep : Char) (files : List SFile) : List String :=
  (files.filter (fun f => allowListed f.path && !f.ignored)).map
    (fun f => normSep sep f.path)

/-- The generator's mutable state over the main traversal loop: the
training records accumulated so far, the unique-line table, and the running
token count. -/
structure ScanState where
  jsonl_data : List Entry
  unique_lines : List (String × String)
  token_count : Nat
deriving Repr, DecidableEq

/-- The state at `__init__`: empty data, empty table, zero tokens. -/
def initState : ScanState := ⟨[], [], 0⟩

/-- The body of the traversal loop of `generate_data` for one file: an
ignored file is skipped entirely; otherwise a source-code entry is appended,
the token count grows by the file's whitespace-token count, and the file's
lines are folded into the unique-line table. -/
def processFile (project_name : String) (st : ScanState) (f : SFile) : ScanState :=
  if f.ignored then st
  else
    { jsonl_data := st.jsonl_data ++
        [generate_source_code_entry project_name f.path (get_file_content f)]
      unique_lines := update_unique_lines st.unique_lines (get_file_content f) f.path
      token_count := st.token_count + (tokenize (get_file_content f)).length }

/-- The whole traversal loop of `generate_data`, over the files in
traversal order. -/
def scanFiles (project_name : String) (files : List SFile) : ScanState :=
  files.foldl (processFile project_name) initState

/-- A model of `random.sample` over the unique-line items: any function
from a population and a requested size to a selection. -/
def Sampler : Type :=
  List (String × String) → Nat → List (String × String)

/-- What `random.sample(pop, k)` guarantees whenever `k ≤ len(pop)`: the
selection has exactly `k` elements and each comes from the population. -/
def SamplerOK (sample : Sampler) : Prop :=
  ∀ pop k, k ≤ pop.length →
    (sample pop k).length = k ∧ ∀ x ∈ sample pop k, x ∈ pop

/-- A deterministic sampler (the first `k` items) used to instantiate
concrete runs. -/
def takeSampler : Sampler := fun pop k => pop.take k

/-- `int(len(self.unique_lines) * self.validation_ratio)`: the number of
line-location pairs to sample, with the float ratio idealised as the exact
rational `frac`. -/
def sampleCount (n : Nat) (frac : ℚ) : Nat :=
  (Int.floor ((n : ℚ) * frac)).toNat

/-- `int(len(self.validation_questions) * 0.1)`: the size of the slice of
sampled questions that is moved into the training data. -/
def sliceCount (k : Nat) : Nat :=
  (Int.floor ((k : ℚ) * (1 / 10 : ℚ))).toNat

/-- The sampled line-location pairs of a run: `random.sample` applied to the
unique-line items with the computed sample size. -/
def sampledPairs (frac : ℚ) (sample : Sampler) (project_name : String)
    (files : List SFile) : List (String × String) :=
  sample (scanFiles project_name files).unique_lines
    (sampleCount (scanFiles project_name files).unique_lines.length frac)

/-- The full list of sampled line-location records of a run, before the
train/validation split. -/
def validationQuestionsOf (frac : ℚ) (sample : Sampler) (project_name : String)
    (files : List SFile) : List Entry :=
  generate_validation_questions project_name (sampledPairs frac sample project_name files)

/-- The `[:int(len*0.1)]` slice of the sampled records that is appended to
the training data. -/
def trainingSliceOf (frac : ℚ) (sample : Sampler) (project_name : String)
    (files : List SFile) : List Entry :=
  (validationQuestionsOf frac sample project_name files).take
    (sliceCount (validationQuestionsOf frac sample project_name files).length)

/-- The `[int(len*0.1):]` remainder of the sampled records that becomes the
validation set. -/
def validationSetOf (frac : ℚ) (sample : Sampler) (project_name : String)
    (files : List SFile) : List Entry :=
  (validationQuestionsOf frac sample project_name files).drop
    (sliceCount (validationQuestionsOf frac sample project_name files).length)

/-- The observable outcome of a run: the lines written to the training file,
the lines written to the validation file, the reported token count, and the
final unique-line table. -/
structure RunResult where
  training : List Entry
  validation : List Entry
  token_count : Nat
  unique_lines : List (String × String)
deriving Repr, DecidableEq

/-- `generate_data()`: traverse, sample, move the 10% slice into training,
append the project-structure record to training, and write both sets out
in accumulation order. -/
def generate_data (project_name : String) (frac : ℚ) (sample : Sampler)
    (sep : Char) (files : List SFile) : RunResult :=
  { training := ((scanFiles project_name files).jsonl_data ++
        trainingSliceOf frac sample project_name files) ++
        [generate_project_structure_question project_name
          (get_project_structure sep files)]
    validation := validationSetOf frac sample project_name files
    token_count := (scanFiles project_name files).token_count
    unique_lines := (scanFiles project_name files).unique_lines }

/-- The relative path of the first file in traversal order that is not
ignored and whose content contains the given line — the path the unique-line
table is expected to attribute the line to. -/
def firstOwner (files : List SFile) (line : String) : Option String :=
  (files.find? (fun f =>
    !f.ignored && (splitlines (get_file_content f)).contains line)).map SFile.path

/-- Left-biased choice on options (`a` if present, else `b`). -/
def optOr (a b : Option String) : Option String :=
  match a with
  | some v => some v
  | none => b

/-- The JSONL record shape required of every output line: a `messages` list
of exactly two turns, the first with role `user`, the second with role
`assistant` (each content is a string by construction). -/
def schemaOK (e : Entry) : Bool :=
  match e.messages with
  | [u, a] => u.role == "user" && a.role == "assistant"
  | _ => false

/-- The traversal list of the C5 scenario: `a.ts` and `b.md`, both with
content `"x"`, neither ignored. -/
def scenarioFiles : List SFile :=
  [⟨"a.ts", some "x", false⟩, ⟨"b.md", some "x", false⟩]

/-- The traversal list for the C1 witness run: one file with two distinct
lines. -/
def c1Files : List SFile := [⟨"a.ts", some "x\ny", false⟩]

/-- The traversal list for the C7 witness run: an unreadable file followed
by a readable one. -/
def c7Files : List SFile := [⟨"bad.ts", none, false⟩, ⟨"ok.ts", some "y", false⟩]

/-- The traversal list for the C10 witness run: one file whose content has a
blank middle line. -/
def c10Files : List SFile := [⟨"a.ts", some "x\n\ny", false⟩]

/-! ### Derived views of the traversal state -/

/-- The unique-line-table step contributed by one file of the traversal. -/
def uniqStep (t : List (String × String)) (f : SFile) : List (String × String) :=
  if f.ignored then t else update_unique_lines t (get_file_content f) f.path

/-- The unique-line table built by the whole traversal. -/
def uniqLinesOf (files : List SFile) : List (String × String) :=
  files.foldl uniqStep []

/-- The token count accumulated by the whole traversal. -/
def tokensOf (files : List SFile) : Nat :=
  ((files.filter fun f => !f.ignored).map
    (fun f => (tokenize (get_file_content f)).length)).sum

/-- The source-code entries emitted by the whole traversal, in order. -/
def entriesOf (project_name : String) (files : List SFile) : List Entry :=
  (files.filter fun f => !f.ignored).map
    (fun f => generate_source_code_entry project_name f.path (get_file_content f))

theorem foldl_processFile_eq (project_name : String) (files : List SFile)
    (st : ScanState) :
    files.foldl (processFile project_name) st =
      ⟨st.jsonl_data ++ entriesOf project_name files,
        files.foldl uniqStep st.unique_lines,
        st.token_count + tokensOf files⟩ := by
  induction files generalizing st with
  | nil =>
    cases st
    simp [entriesOf, tokensOf]
  | cons f fs ih =>
    cases hig : f.ignored with
    | true =>
      rw [List.foldl_cons, show processFile project_name st f = st from by
        simp [processFile, hig], ih]
      simp [entriesOf, tokensOf, uniqStep, hig]
    | false =>
      rw [List.foldl_cons, show processFile project_name st f =
          ⟨st.jsonl_data ++
              [generate_source_code_entry project_name f.path (get_file_content f)],
            update_unique_lines st.unique_lines (get_file_content f) f.path,
            st.token_count + (tokenize (get_file_content f)).length⟩ from by
        simp [processFile, hig], ih]
      simp [entriesOf, tokensOf, uniqStep, hig, Nat.add_assoc]

theorem scanFiles_eq (project_name : String) (files : List SFile) :
    scanFiles project_name files =
      ⟨entriesOf project_name files, uniqLinesOf files, tokensOf files⟩ := by
  rw [scanFiles, foldl_processFile_eq]
  simp [initState, uniqLinesOf]

/-! ### The unique-line table: first occurrence wins -/

theorem optOr_none_right (a : Option String) : optOr a none = a := by
  cases a <;> rfl

theorem lookup_insertUnique (tbl : List (String × String)) (l p x : String) :
    lookupLine (insertUnique tbl l p) x =
      optOr (lookupLine tbl x) (if x = l then some p else none) := by
  unfold insertUnique lookupLine
  by_cases hany : tbl.any (fun q => q.1 == l) = true
  · rw [if_pos hany]
    by_cases hx : x = l
    · subst hx
      have hsome : (tbl.find? (fun q => q.1 == x)).isSome := by
        rw [List.find?_isSome]
        obtain ⟨q, hq, hqx⟩ := List.any_eq_true.mp hany
        exact ⟨q, hq, hqx⟩
      obtain ⟨q, hq⟩ := Option.isSome_iff_exists.mp hsome
      rw [hq]
      rfl
    · rw [if_neg hx, optOr_none_right]
  · rw [if_neg hany]
    simp only [List.find?_append]
    have hnone : tbl.find? (fun q => q.1 == l) = none := by
      rw [List.find?_eq_none]
      intro q hq
      exact fun hql => hany (List.any_eq_true.mpr ⟨q, hq, hql⟩)
    by_cases hx : x = l
    · subst hx
      rw [hnone]
      simp [optOr]
    · cases hf : tbl.find? (fun q => q.1 == x) with
      | some q => simp [optOr]
      | none =>
        simp only [Option.none_or]
        rw [if_neg hx, optOr_none_right]
        have : (([(l, p)] : List (String × String)).find? (fun q => q.1 == x)) = none := by
          rw [List.find?_eq_none]
          intro q hq
          simp only [List.mem_singleton] at hq
          subst hq
          simp [Ne.symm hx]
        rw [this]

theorem lookup_foldl_insert (lines : List String) (tbl : List (String × String))
    (path x : String) :
    lookupLine (lines.foldl (fun t l => insertUnique t l path) tbl) x =
      optOr (lookupLine tbl x) (if x ∈ lines then some path else none) := by
  induction lines generalizing tbl with
  | nil => simp [optOr_none_right]
  | cons l ls ih =>
    rw [List.foldl_cons, ih, lookup_insertUnique]
    cases h : lookupLine tbl x with
    | some v => simp [optOr]
    | none =>
      by_cases hx : x = l
      · subst hx
        simp [optOr]
      · simp [optOr, hx]

theorem lookup_update_unique_lines (tbl : List (String × String))
    (content path x : String) :
    lookupLine (update_unique_lines tbl content path) x =
      optOr (lookupLine tbl x)
        (if x ∈ splitlines content then some path else none) := by
  unfold update_unique_lines
  exact lookup_foldl_insert _ tbl path x

theorem lookup_uniqFold (files : List SFile) (tbl : List (String × String))
    (x : String) :
    lookupLine (files.foldl uniqStep tbl) x =
      optOr (lookupLine tbl x) (firstOwner files x) := by
  induction files generalizing tbl with
  | nil => simp [firstOwner, optOr_none_right]
  | cons f fs ih =>
    rw [List.foldl_cons]
    cases hig : f.ignored with
    | true =>
      rw [show uniqStep tbl f = tbl from by simp [uniqStep, hig], ih]
      have : firstOwner (f :: fs) x = firstOwner fs x := by
        unfold firstOwner
        rw [List.find?_cons, show (!f.ignored &&
          (splitlines (get_file_content f)).contains x) = false from by simp [hig]]
      rw [this]
    | false =>
      rw [show uniqStep tbl f = update_unique_lines tbl (get_file_content f) f.path
          from by simp [uniqStep, hig], ih, lookup_update_unique_lines]
      by_cases hmem : x ∈ splitlines (get_file_content f)
      · have : firstOwner (f :: fs) x = some f.path := by
          unfold firstOwner
          rw [List.find?_cons, show (!f.ignored &&
            (splitlines (get_file_content f)).contains x) = true from by
              simp [hig, hmem]]
          rfl
        rw [this]
        cases lookupLine tbl x <;> simp [optOr, hmem]
      · have : firstOwner (f :: fs) x = firstOwner fs x := by
          unfold firstOwner
          rw [List.find?_cons, show (!f.ignored &&
            (splitlines (get_file_content f)).contains x) = false from by
              simp [hig, hmem]]
        rw [this]
        cases lookupLine tbl x <;> simp [optOr, hmem]

theorem lookup_uniqLinesOf (files : List SFile) (x : String) :
    lookupLine (uniqLinesOf files) x = firstOwner files x := by
  rw [uniqLinesOf, lookup_uniqFold]
  rfl

theorem keys_nodup_insertUnique (tbl : List (String × String)) (l p : String)
    (h : (tbl.map Prod.fst).Nodup) :
    ((insertUnique tbl l p).map Prod.fst).Nodup := by
  unfold insertUnique
  by_cases hany : tbl.any (fun q => q.1 == l) = true
  · rw [if_pos hany]
    exact h
  · rw [if_neg hany, List.map_append]
    rw [List.nodup_append]
    refine ⟨h, List.nodup_singleton l, ?_⟩
    intro a ha hb
    simp only [List.map_cons, List.map_nil, List.mem_singleton] at hb
    subst hb
    obtain ⟨q, hq, hql⟩ := List.mem_map.mp ha
    exact hany (List.any_eq_true.mpr ⟨q, hq, by simp [hql]⟩)

theorem keys_nodup_foldl_insert (lines : List String) (tbl : List (String × String))
    (path : String) (h : (tbl.map Prod.fst).Nodup) :
    (((lines.foldl (fun t l => insertUnique t l path) tbl)).map Prod.fst).Nodup := by
  induction lines generalizing tbl with
  | nil => exact h
  | cons l ls ih =>
    rw [List.foldl_cons]
    exact ih _ (keys_nodup_insertUnique tbl l path h)

theorem keys_nodup_uniqFold (files : List SFile) (tbl : List (String × String))
    (h : (tbl.map Prod.fst).Nodup) :
    ((files.foldl uniqStep tbl).map Prod.fst).Nodup := by
  induction files generalizing tbl with
  | nil => exact h
  | cons f fs ih =>
    rw [List.foldl_cons]
    apply ih
    unfold uniqStep
    cases hig : f.ignored
    · rw [if_neg (by simp)]
      exact keys_nodup_foldl_insert _ tbl f.path h
    · rw [if_pos rfl]
      exact h

theorem keys_nodup_uniqLinesOf (files : List SFile) :
    ((uniqLinesOf files).map Prod.fst).Nodup :=
  keys_nodup_uniqFold files [] List.nodup_nil

/-! ### Sampler and split-size facts -/

theorem takeSampler_ok : SamplerOK takeSampler := by
  intro pop k h
  constructor
  · simp only [takeSampler, List.length_take]
    omega
  · intro x hx
    exact List.mem_of_mem_take hx

theorem sampleCount_zero (frac : ℚ) : sampleCount 0 frac = 0 := by
  unfold sampleCount
  norm_num

theorem sampleCount_le (n : Nat) (frac : ℚ) (h : frac ≤ 1) :
    sampleCount n frac ≤ n := by
  unfold sampleCount
  have h1 : (n : ℚ) * frac ≤ (n : ℚ) := by
    calc (n : ℚ) * frac ≤ (n : ℚ) * 1 :=
          mul_le_mul_of_nonneg_left h (by positivity)
      _ = (n : ℚ) := mul_one _
  have h2 : Int.floor ((n : ℚ) * frac) ≤ (n : Int) := by
    have := Int.floor_le_floor h1
    rwa [Int.floor_natCast] at this
  calc (Int.floor ((n : ℚ) * frac)).toNat ≤ ((n : Int)).toNat :=
        Int.toNat_le_toNat h2
    _ = n := by simp

theorem sliceCount_le (k : Nat) : sliceCount k ≤ k := by
  unfold sliceCount
  have h1 : (k : ℚ) * (1 / 10) ≤ (k : ℚ) := by
    calc (k : ℚ) * (1 / 10) ≤ (k : ℚ) * 1 :=
          mul_le_mul_of_nonneg_left (by norm_num) (by positivity)
      _ = (k : ℚ) := mul_one _
  have h2 : Int.floor ((k : ℚ) * (1 / 10)) ≤ (k : Int) := by
    have := Int.floor_le_floor h1
    rwa [Int.floor_natCast] at this
  calc (Int.floor ((k : ℚ) * (1 / 10))).toNat ≤ ((k : Int)).toNat :=
        Int.toNat_le_toNat h2
    _ = k := by simp

theorem sampleCount_one_one : sampleCount 1 1 = 1 := by
  unfold sampleCount
  norm_num

theorem sampleCount_two_half : sampleCount 2 (1 / 2) = 1 := by
  unfold sampleCount
  norm_num

theorem sliceCount_zero : sliceCount 0 = 0 := by
  unfold sliceCount
  norm_num

theorem sliceCount_one : sliceCount 1 = 0 := by
  unfold sliceCount
  norm_num [Int.floor_eq_iff]

theorem eq_singleton_of_sample (l : List (String × String)) (a : String × String)
    (h1 : l.length = 1) (h2 : ∀ x ∈ l, x ∈ [a]) : l = [a] := by
  cases l with
  | nil => simp at h1
  | cons x xs =>
    cases xs with
    | nil =>
      have hx := h2 x (List.mem_singleton_self x)
      rw [List.mem_singleton] at hx
      rw [hx]
    | cons y ys => simp at h1

/-! ### Ignored files leave no trace -/

theorem foldl_processFile_filter (project_name : String) (files : List SFile)
    (st : ScanState) :
    (files.filter fun f => !f.ignored).foldl (processFile project_name) st =
      files.foldl (processFile project_name) st := by
  induction files generalizing st with
  | nil => rfl
  | cons f fs ih =>
    cases hig : f.ignored with
    | true =>
      rw [show (f :: fs).filter (fun f => !f.ignored) =
          fs.filter (fun f => !f.ignored) from by simp [List.filter_cons, hig]]
      rw [ih, List.foldl_cons,
        show processFile project_name st f = st from by simp [processFile, hig]]
    | false =>
      rw [show (f :: fs).filter (fun f => !f.ignored) =
          f :: fs.filter (fun f => !f.ignored) from by simp [List.filter_cons, hig]]
      rw [List.foldl_cons, List.foldl_cons, ih]

theorem scanFiles_filter (project_name : String) (files : List SFile) :
    scanFiles project_name (files.filter fun f => !f.ignored) =
      scanFiles project_name files := by
  unfold scanFiles
  exact foldl_processFile_filter project_name files initState

theorem get_project_structure_filter (sep : Char) (files : List SFile) :
    get_project_structure sep (files.filter fun f => !f.ignored) =
      get_project_structure sep files := by
  unfold get_project_structure
  congr 1
  induction files with
  | nil => rfl
  | cons f fs ih =>
    cases hig : f.ignored <;> cases hal : allowListed f.path <;>
      simp [List.filter_cons, hig, hal, ih]

/-! ### Claims -/

/-- C1: the number of sampled line-location entries equals
`floor(total_unique_lines * validation_ratio)`; the slice moved into the
training set has size `floor(that quantity * 0.1)`; and the validation set
holds the remainder, so `|validation| + |training slice|` equals
`floor(total_unique_lines * validation_ratio)`. -/
theorem c1_split_sizes (project_name : String) (frac : ℚ) (sample : Sampler)
    (files : List SFile) (hs : SamplerOK sample) (hfrac : frac ≤ 1) :
    (validationQuestionsOf frac sample project_name files).length =
      sampleCount (scanFiles project_name files).unique_lines.length frac ∧
    (trainingSliceOf frac sample project_name files).length =
      sliceCount
        (sampleCount (scanFiles project_name files).unique_lines.length frac) ∧
    (validationSetOf frac sample project_name files).length +
        (trainingSliceOf frac sample project_name files).length =
      sampleCount (scanFiles project_name files).unique_lines.length frac := by
  obtain ⟨hlen, -⟩ := hs (scanFiles project_name files).unique_lines
    (sampleCount (scanFiles project_name files).unique_lines.length frac)
    (sampleCount_le _ frac hfrac)
  have hvq : (validationQuestionsOf frac sample project_name files).length =
      sampleCount (scanFiles project_name files).unique_lines.length frac := by
    unfold validationQuestionsOf generate_validation_questions
    rw [List.length_map]
    exact hlen
  refine ⟨hvq, ?_, ?_⟩
  · unfold trainingSliceOf
    rw [List.length_take, hvq]
    exact Nat.min_eq_left (sliceCount_le _)
  · unfold validationSetOf trainingSliceOf
    rw [List.length_drop, List.length_take, hvq]
    have := sliceCount_le
      (sampleCount (scanFiles project_name files).unique_lines.length frac)
    omega

/-- C2: after all files are processed, the unique-line table maps each
distinct line text to at most one entry, and the associated path is the
relative path of the first scanned file in traversal order whose content
contained that line; later files never overwrite the entry. -/
theorem c2_first_occurrence_wins (project_name : String) (files : List SFile)
    (line : String) :
    lookupLine (scanFiles project_name files).unique_lines line =
      firstOwner files line ∧
    ((scanFiles project_name files).unique_lines.map Prod.fst).Nodup := by
  rw [scanFiles_eq]
  exact ⟨lookup_uniqLinesOf files line, keys_nodup_uniqLinesOf files⟩

/-- C4: files matched by the ignore spec are skipped entirely: the whole run
on a file list equals the run on the list with the ignored files removed, so
an ignored file yields no source-code entry, no token-count contribution, no
unique-line insertion, and nothing in either output. -/
theorem c4_ignored_files_no_trace (project_name : String) (frac : ℚ)
    (sample : Sampler) (sep : Char) (files : List SFile) :
    generate_data project_name frac sample sep
        (files.filter fun f => !f.ignored) =
      generate_data project_name frac sample sep files := by
  unfold generate_data trainingSliceOf validationSetOf validationQuestionsOf
    sampledPairs
  rw [scanFiles_filter, get_project_structure_filter]

/-- C8: a path is in the structure entry's `project_structure` list exactly
when it is the separator-normalised relative path of a non-ignored traversed
file whose name ends in `.ts` or `.tsx`. -/
theorem c8_structure_membership (sep : Char) (files : List SFile) (p : String) :
    p ∈ get_project_structure sep files ↔
      ∃ f ∈ files, f.ignored = false ∧ allowListed f.path = true ∧
        p = normSep sep f.path := by
  unfold get_project_structure
  rw [List.mem_map]
  constructor
  · rintro ⟨f, hf, rfl⟩
    rw [List.mem_filter] at hf
    obtain ⟨hmem, hcond⟩ := hf
    rw [Bool.and_eq_true] at hcond
    exact ⟨f, hmem, by simpa using hcond.2, hcond.1, rfl⟩
  · rintro ⟨f, hmem, hig, hal, rfl⟩
    exact ⟨f, List.mem_filter.mpr ⟨hmem, by simp [hig, hal]⟩, rfl⟩

/-- C9: the 10% slice appended to the training set and the remainder kept as
the validation set are the take and drop of the sampled list at the same
split index, so together they are exactly the sampled list: no entry is
duplicated and none is dropped. -/
theorem c9_slice_partition (project_name : String) (frac : ℚ) (sample : Sampler)
    (sep : Char) (files : List SFile) :
    trainingSliceOf frac sample project_name files ++
        validationSetOf frac sample project_name files =
      validationQuestionsOf frac sample project_name files ∧
    (generate_data project_name frac sample sep files).validation =
      validationSetOf frac sample project_name files ∧
    (generate_data project_name frac sample sep files).training =
      ((scanFiles project_name files).jsonl_data ++
        trainingSliceOf frac sample project_name files) ++
        [generate_project_structure_question project_name
          (get_project_structure sep files)] := by
  refine ⟨?_, rfl, rfl⟩
  unfold trainingSliceOf validationSetOf
  exact List.take_append_drop _ _

theorem empty_run_eq (project_name : String) (frac : ℚ) (sample : Sampler)
    (sep : Char) (hs : SamplerOK sample) :
    generate_data project_name frac sample sep [] =
      ⟨[generate_project_structure_question project_name []], [], 0, []⟩ := by
  have hpairs : sampledPairs frac sample project_name [] = [] := by
    unfold sampledPairs
    rw [show (scanFiles project_name []).unique_lines.length = 0 from rfl,
      sampleCount_zero]
    obtain ⟨hlen, -⟩ := hs (scanFiles project_name []).unique_lines 0 (Nat.zero_le _)
    exact List.length_eq_zero.mp hlen
  have hvq : validationQuestionsOf frac sample project_name [] = [] := by
    unfold validationQuestionsOf
    rw [hpairs]
    rfl
  have hslice : trainingSliceOf frac sample project_name [] = [] := by
    unfold trainingSliceOf
    rw [hvq, List.take_nil]
  have hvalid : validationSetOf frac sample project_name [] = [] := by
    unfold validationSetOf
    rw [hvq, List.drop_nil]
  unfold generate_data
  rw [hslice, hvalid]
  rfl

/-- C3 counterexample: on an empty project directory the training file does
not contain zero lines — it contains exactly one line, the project-structure
entry — so the claim as stated is false; the validation file has zero lines
and the token count is 0. -/
theorem c3_counterexample :
    (generate_data "demo" (2 / 5) takeSampler '/' []).training ≠ [] ∧
    (generate_data "demo" (2 / 5) takeSampler '/' []).training.length = 1 ∧
    (generate_data "demo" (2 / 5) takeSampler '/' []).validation.length = 0 ∧
    (generate_data "demo" (2 / 5) takeSampler '/' []).token_count = 0 := by
  have h := empty_run_eq "demo" (2 / 5) takeSampler '/' takeSampler_ok
  rw [h]
  exact ⟨by simp, rfl, rfl, rfl⟩

/-- C3 (amended): for a run over an empty project directory, the validation
file contains zero lines, the training file contains exactly one line — the
project-structure entry with an empty path list — and the reported
token_count equals 0. -/
theorem c3_empty_run (project_name : String) (frac : ℚ) (sample : Sampler)
    (sep : Char) (hs : SamplerOK sample) :
    generate_data project_name frac sample sep [] =
      ⟨[generate_project_structure_question project_name []], [], 0, []⟩ :=
  empty_run_eq project_name frac sample sep hs

/-- Witness for `c3_empty_run` at a concrete sampler and inputs. -/
theorem c3_empty_run_witness :
    SamplerOK takeSampler ∧
    generate_data "demo2" 1 takeSampler '/' [] =
      ⟨[generate_project_structure_question "demo2" []], [], 0, []⟩ :=
  ⟨takeSampler_ok, c3_empty_run "demo2" 1 takeSampler '/' takeSampler_ok⟩

/-- Witness for `c1_split_sizes` at a concrete sampler, ratio 1/2 and a
two-line project. -/
theorem c1_split_sizes_witness :
    SamplerOK takeSampler ∧ ((1 : ℚ) / 2 ≤ 1) ∧
    ((validationQuestionsOf (1 / 2) takeSampler "p" c1Files).length =
      sampleCount (scanFiles "p" c1Files).unique_lines.length (1 / 2) ∧
    (trainingSliceOf (1 / 2) takeSampler "p" c1Files).length =
      sliceCount
        (sampleCount (scanFiles "p" c1Files).unique_lines.length (1 / 2)) ∧
    (validationSetOf (1 / 2) takeSampler "p" c1Files).length +
        (trainingSliceOf (1 / 2) takeSampler "p" c1Files).length =
      sampleCount (scanFiles "p" c1Files).unique_lines.length (1 / 2)) :=
  ⟨takeSampler_ok, by norm_num,
    c1_split_sizes "p" (1 / 2) takeSampler c1Files takeSampler_ok (by norm_num)⟩

/-- C5: on the scenario project with files `a.ts` and `b.md` both containing
`"x"`, ratio 1.0 and no ignore file, the unique-line table is
`[("x", "a.ts")]`, exactly one line-location entry is sampled with assistant
payload for `a.ts`, the training set is the two source-code entries followed
by the structure entry listing only `a.ts`, and the validation set is that
single line-location entry. -/
theorem c5_two_file_scenario (project_name : String) (sample : Sampler)
    (hs : SamplerOK sample) :
    generate_data project_name 1 sample '/' scenarioFiles =
      ⟨[generate_source_code_entry project_name "a.ts" "x",
        generate_source_code_entry project_name "b.md" "x",
        generate_project_structure_question project_name ["a.ts"]],
        [line_location_entry project_name ("x", "a.ts")],
        2,
        [("x", "a.ts")]⟩ := by
  have huniq : uniqLinesOf scenarioFiles = [("x", "a.ts")] := by decide
  have htok : tokensOf scenarioFiles = 2 := by decide
  have hscan : scanFiles project_name scenarioFiles =
      ⟨[generate_source_code_entry project_name "a.ts" "x",
        generate_source_code_entry project_name "b.md" "x"],
        [("x", "a.ts")], 2⟩ := by
    rw [scanFiles_eq, huniq, htok]
    rfl
  have hpairs : sampledPairs 1 sample project_name scenarioFiles =
      [("x", "a.ts")] := by
    unfold sampledPairs
    rw [hscan]
    rw [show ([("x", "a.ts")] : List (String × String)).length = 1 from rfl,
      sampleCount_one_one]
    obtain ⟨hlen, hmem⟩ := hs [("x", "a.ts")] 1 (by simp)
    exact eq_singleton_of_sample _ _ hlen hmem
  have hvq : validationQuestionsOf 1 sample project_name scenarioFiles =
      [line_location_entry project_name ("x", "a.ts")] := by
    unfold validationQuestionsOf
    rw [hpairs]
    rfl
  have hslice : trainingSliceOf 1 sample project_name scenarioFiles = [] := by
    unfold trainingSliceOf
    rw [hvq, show ([line_location_entry project_name ("x", "a.ts")] :
      List Entry).length = 1 from rfl, sliceCount_one]
    rfl
  have hvalid : validationSetOf 1 sample project_name scenarioFiles =
      [line_location_entry project_name ("x", "a.ts")] := by
    unfold validationSetOf
    rw [hvq, show ([line_location_entry project_name ("x", "a.ts")] :
      List Entry).length = 1 from rfl, sliceCount_one]
    rfl
  unfold generate_data
  rw [hscan, hslice, hvalid]
  rfl

/-- Witness for `c5_two_file_scenario` at a concrete sampler. -/
theorem c5_two_file_scenario_witness :
    SamplerOK takeSampler ∧
    generate_data "p" 1 takeSampler '/' scenarioFiles =
      ⟨[generate_source_code_entry "p" "a.ts" "x",
        generate_source_code_entry "p" "b.md" "x",
        generate_project_structure_question "p" ["a.ts"]],
        [line_location_entry "p" ("x", "a.ts")],
        2,
        [("x", "a.ts")]⟩ :=
  ⟨takeSampler_ok, c5_two_file_scenario "p" takeSampler takeSampler_ok⟩

/-- C6: every line written to either output file is a JSON object whose
`messages` key holds exactly two elements, the first with role `user` and
the second with role `assistant`, each with a string content field. -/
theorem c6_output_schema (project_name : String) (frac : ℚ) (sample : Sampler)
    (sep : Char) (files : List SFile) :
    ((generate_data project_name frac sample sep files).training.all schemaOK &&
      (generate_data project_name frac sample sep files).validation.all
        schemaOK) = true := by
  have hvq : ∀ e ∈ validationQuestionsOf frac sample project_name files,
      schemaOK e = true := by
    intro e he
    unfold validationQuestionsOf generate_validation_questions at he
    obtain ⟨pair, -, rfl⟩ := List.mem_map.mp he
    rfl
  rw [Bool.and_eq_true, List.all_eq_true, List.all_eq_true]
  constructor
  · intro e he
    unfold generate_data at he
    simp only [List.mem_append, List.mem_singleton] at he
    rcases he with (h1 | h2) | h3
    · rw [scanFiles_eq] at h1
      unfold entriesOf at h1
      obtain ⟨f, -, rfl⟩ := List.mem_map.mp h1
      rfl
    · unfold trainingSliceOf at h2
      exact hvq e (List.mem_of_mem_take h2)
    · rw [h3]
      rfl
  · intro e he
    unfold generate_data at he
    unfold validationSetOf at he
    exact hvq e (List.mem_of_mem_drop he)

/-- C7: a file whose read fails is recorded with empty content yet still
yields a source-code entry, and the run keeps going: every non-ignored file
of the traversal, the failing one included, contributes exactly one entry. -/
theorem c7_read_failure_still_entry (project_name : String) (files : List SFile)
    (f : SFile) (hf : f ∈ files) (hig : f.ignored = false) (hr : f.read = none) :
    generate_source_code_entry project_name f.path "" ∈
      (scanFiles project_name files).jsonl_data ∧
    (scanFiles project_name files).jsonl_data.length =
      (files.filter fun g => !g.ignored).length := by
  rw [scanFiles_eq]
  have hcontent : get_file_content f = "" := by
    unfold get_file_content
    rw [hr]
  constructor
  · unfold entriesOf
    apply List.mem_map.mpr
    refine ⟨f, List.mem_filter.mpr ⟨hf, by simp [hig]⟩, ?_⟩
    rw [hcontent]
  · unfold entriesOf
    rw [List.length_map]

/-- Witness for `c7_read_failure_still_entry` at a concrete broken file. -/
theorem c7_read_failure_witness :
    (⟨"bad.ts", none, false⟩ : SFile) ∈ c7Files ∧
    (⟨"bad.ts", none, false⟩ : SFile).ignored = false ∧
    (⟨"bad.ts", none, false⟩ : SFile).read = none ∧
    (generate_source_code_entry "p" (⟨"bad.ts", none, false⟩ : SFile).path "" ∈
      (scanFiles "p" c7Files).jsonl_data ∧
    (scanFiles "p" c7Files).jsonl_data.length =
      (c7Files.filter fun g => !g.ignored).length) :=
  ⟨by decide, rfl, rfl,
    c7_read_failure_still_entry "p" c7Files ⟨"bad.ts", none, false⟩
      (by decide) rfl rfl⟩

/-- C10: if a scanned non-ignored file has a blank line, the empty string is
a key of the unique-line table, attributed to the first such file in
traversal order, and its line-location entry quotes an empty line between
the two apostrophes; conversely an empty content contributes no table keys
(`update_unique_lines` is the identity on it) and zero tokens. -/
theorem c10_blank_lines (project_name : String) (files : List SFile) (f : SFile)
    (p : String) (hf : f ∈ files) (hig : f.ignored = false)
    (hb : "" ∈ splitlines (get_file_content f)) :
    (lookupLine (scanFiles project_name files).unique_lines "").isSome = true ∧
    lookupLine (scanFiles project_name files).unique_lines "" =
      firstOwner files "" ∧
    line_location_entry project_name ("", p) =
      ⟨[⟨"user", "In the " ++ project_name ++
          " project, where can I find this line of code: \x27\x27?"⟩,
        ⟨"assistant", dumpsFilePath p⟩]⟩ ∧
    (∀ tbl q, update_unique_lines tbl "" q = tbl) ∧
    tokenize "" = [] := by
  have hlook : lookupLine (scanFiles project_name files).unique_lines "" =
      firstOwner files "" := by
    rw [scanFiles_eq]
    exact lookup_uniqLinesOf files ""
  refine ⟨?_, hlook, ?_, fun tbl q => rfl, rfl⟩
  · rw [hlook]
    unfold firstOwner
    have hfind : (files.find? (fun g => !g.ignored &&
        (splitlines (get_file_content g)).contains "")).isSome := by
      rw [List.find?_isSome]
      exact ⟨f, hf, by simp [hig, hb]⟩
    obtain ⟨g, hg⟩ := Option.isSome_iff_exists.mp hfind
    rw [hg]
    rfl
  · have hstr : "In the " ++ project_name ++
        " project, where can I find this line of code: \x27" ++ "" ++ "\x27?" =
        "In the " ++ project_name ++
        " project, where can I find this line of code: \x27\x27?" := by
      rw [String.append_empty,
        String.append_assoc ("In the " ++ project_name)]
      congr 1
    calc line_location_entry project_name ("", p)
        = ⟨[⟨"user", "In the " ++ project_name ++
            " project, where can I find this line of code: \x27" ++ "" ++
            "\x27?"⟩,
          ⟨"assistant", dumpsFilePath p⟩]⟩ := rfl
      _ = ⟨[⟨"user", "In the " ++ project_name ++
            " project, where can I find this line of code: \x27\x27?"⟩,
          ⟨"assistant", dumpsFilePath p⟩]⟩ := by rw [hstr]

/-- Witness for `c10_blank_lines` at a concrete file with a blank line. -/
theorem c10_blank_lines_witness :
    (⟨"a.ts", some "x\n\ny", false⟩ : SFile) ∈ c10Files ∧
    (⟨"a.ts", some "x\n\ny", false⟩ : SFile).ignored = false ∧
    "" ∈ splitlines (get_file_content (⟨"a.ts", some "x\n\ny", false⟩ : SFile)) ∧
    ((lookupLine (scanFiles "p" c10Files).unique_lines "").isSome = true ∧
    lookupLine (scanFiles "p" c10Files).unique_lines "" = firstOwner c10Files "" ∧
    line_location_entry "p" ("", "a.ts") =
      ⟨[⟨"user", "In the " ++ "p" ++
          " project, where can I find this line of code: \x27\x27?"⟩,
        ⟨"assistant", dumpsFilePath "a.ts"⟩]⟩ ∧
    (∀ tbl q, update_unique_lines tbl "" q = tbl) ∧
    tokenize "" = []) :=
  ⟨by decide, rfl, by decide,
    c10_blank_lines "p" c10Files ⟨"a.ts", some "x\n\ny", false⟩ "a.ts"
      (by decide) rfl (by decide)⟩
